import Mathlib

/-!
Verification of the trueform rigid point-cloud registration layer.

The Python entry points `fit_rigid_alignment`, `fit_knn_alignment`,
`fit_icp_alignment` and `chamfer_error` (src/python/src/trueform/_geometry/)
validate their inputs, select an alignment mode from which arguments carry
normals, and dispatch to native solver kernels.  The Python layer is embedded
here statement by statement; the native kernels are external collaborators and
are kept abstract (a record of solver functions) or, where a claim is about the
kernel itself, modelled from the specification.
-/

/-- Numeric precision of a point cloud (`float32` / `float64` in the source). -/
inductive DType : Type
  | float32
  | float64
deriving DecidableEq, Repr

/-- Error kinds raised by the registration layer.  The Python source raises
`ValueError` with distinct messages; each distinct message is one constructor
(`Dimension mismatch`, `Dtype mismatch`, the normals-require-3D message, and
the invalid-parameter rejection of the iterative entry point). -/
inductive FitError : Type
  | dimensionMismatch
  | dtypeMismatch
  | normalsRequireThreeD
  | invalidParameter
deriving DecidableEq, Repr

/-- A point cloud as seen by the Python wrapper layer: its dimensionality
(`c.dims`), numeric precision (`c.dtype`), the opaque native payload
(`c._wrapper` in the source, here `wrapper : W`) handed to the solver kernels,
and the caller-held stored transformation field (`c.transformation`, here an
abstract `T`). -/
structure PC (W T : Type) : Type where
  dims : ℕ
  dtype : DType
  wrapper : W
  transformation : T

/-- Abstract native kernels for `fit_rigid_alignment`: the three mode-specific
functions `fit_rigid_alignment_weighted_*`, `fit_rigid_alignment_p2plane_*`,
`fit_rigid_alignment_*` reached via `getattr(_trueform.geometry, func_name)`.

Modelled from the spec: the native kernels are absent from src/; per the spec
they only consume current world coordinates and return transforms as
standalone values, never mutating their inputs, hence pure functions. -/
structure RigidSolvers (W N R : Type) : Type where
  weighted : W → N → W → N → R
  p2plane : W → W → N → R
  p2p : W → W → R

/-- Embedding of `fit_rigid_alignment` (fit_rigid_alignment.py, lines 74-114).
Inputs are `PointCloud` or `(PointCloud, normals)`; the tuple destructuring of
the source is the `(PC, Option N)` pairing.  Validation: dimension mismatch,
then dtype mismatch, then normals-require-3D; then dispatch on which inputs
carry normals.  The Python function never assigns to the clouds, so the state
components are returned unchanged alongside the result. -/
def fit_rigid_alignment {W T N R : Type} (g : RigidSolvers W N R)
    (cloud0 cloud1 : PC W T × Option N) :
    Except FitError R × (PC W T × Option N) × (PC W T × Option N) :=
  (let c0 := cloud0.1
   let normals0 := cloud0.2
   let c1 := cloud1.1
   let normals1 := cloud1.2
   if c0.dims ≠ c1.dims then .error .dimensionMismatch
   else if c0.dtype ≠ c1.dtype then .error .dtypeMismatch
   else if (normals0.isSome ∨ normals1.isSome) ∧ c0.dims ≠ 3 then
     .error .normalsRequireThreeD
   else
     match normals0, normals1 with
     | some n0, some n1 => .ok (g.weighted c0.wrapper n0 c1.wrapper n1)
     | _, some n1 => .ok (g.p2plane c0.wrapper c1.wrapper n1)
     | _, none => .ok (g.p2p c0.wrapper c1.wrapper),
   cloud0, cloud1)

/-- Parameters of the single k-NN step, passed through to the kernel:
`k`, `sigma` (None ⇒ adaptive) and `outlier_proportion`. -/
structure KnnParams : Type where
  k : ℤ
  sigma : Option ℚ
  outlierProportion : ℚ
deriving DecidableEq, Repr

/-- Abstract native kernels for `fit_knn_alignment`
(`fit_knn_alignment_weighted_*` / `_p2plane_*` / plain).

Modelled from the spec: absent from src/, pure as for `RigidSolvers`. -/
structure KnnSolvers (W N R : Type) : Type where
  weighted : W → N → W → N → KnnParams → R
  p2plane : W → W → N → KnnParams → R
  p2p : W → W → KnnParams → R

/-- Embedding of `fit_knn_alignment` (fit_knn_alignment.py, lines 88-131):
same validation ladder and normals dispatch as `fit_rigid_alignment`, with the
step parameters forwarded to the selected kernel. -/
def fit_knn_alignment {W T N R : Type} (g : KnnSolvers W N R)
    (cloud0 cloud1 : PC W T × Option N) (p : KnnParams) :
    Except FitError R × (PC W T × Option N) × (PC W T × Option N) :=
  (let c0 := cloud0.1
   let normals0 := cloud0.2
   let c1 := cloud1.1
   let normals1 := cloud1.2
   if c0.dims ≠ c1.dims then .error .dimensionMismatch
   else if c0.dtype ≠ c1.dtype then .error .dtypeMismatch
   else if (normals0.isSome ∨ normals1.isSome) ∧ c0.dims ≠ 3 then
     .error .normalsRequireThreeD
   else
     match normals0, normals1 with
     | some n0, some n1 => .ok (g.weighted c0.wrapper n0 c1.wrapper n1 p)
     | _, some n1 => .ok (g.p2plane c0.wrapper c1.wrapper n1 p)
     | _, none => .ok (g.p2p c0.wrapper c1.wrapper p),
   cloud0, cloud1)

/-- Parameters of the iterative entry point (`fit_icp_alignment` keyword
arguments). -/
structure IcpParams : Type where
  maxIterations : ℤ
  nSamples : ℤ
  k : ℤ
  sigma : Option ℚ
  outlierProportion : ℚ
  minRelativeImprovement : ℚ
  emaAlpha : ℚ
deriving DecidableEq, Repr

/-- Abstract native kernels for `fit_icp_alignment`
(`fit_icp_alignment_weighted_*` / `_p2plane_*` / plain).

Modelled from the spec: absent from src/, pure as for `RigidSolvers`. -/
structure IcpSolvers (W N R : Type) : Type where
  weighted : W → N → W → N → IcpParams → R
  p2plane : W → W → N → IcpParams → R
  p2p : W → W → IcpParams → R

/-- Embedding of `fit_icp_alignment` (fit_icp_alignment.py, lines 94-149):
same validation ladder and normals dispatch, with the iteration parameters
forwarded to the selected kernel. -/
def fit_icp_alignment {W T N R : Type} (g : IcpSolvers W N R)
    (cloud0 cloud1 : PC W T × Option N) (p : IcpParams) :
    Except FitError R × (PC W T × Option N) × (PC W T × Option N) :=
  (let c0 := cloud0.1
   let normals0 := cloud0.2
   let c1 := cloud1.1
   let normals1 := cloud1.2
   if c0.dims ≠ c1.dims then .error .dimensionMismatch
   else if c0.dtype ≠ c1.dtype then .error .dtypeMismatch
   else if (normals0.isSome ∨ normals1.isSome) ∧ c0.dims ≠ 3 then
     .error .normalsRequireThreeD
   else
     match normals0, normals1 with
     | some n0, some n1 => .ok (g.weighted c0.wrapper n0 c1.wrapper n1 p)
     | _, some n1 => .ok (g.p2plane c0.wrapper c1.wrapper n1 p)
     | _, none => .ok (g.p2p c0.wrapper c1.wrapper p),
   cloud0, cloud1)

/-- Concrete instantiation of the rigid kernels at unit types, used to
evaluate the theorems below on concrete inputs. -/
def unitRigid : RigidSolvers Unit Unit Unit :=
  ⟨fun _ _ _ _ => (), fun _ _ _ => (), fun _ _ => ()⟩

/-- Concrete instantiation of the k-NN kernels at unit types. -/
def unitKnn : KnnSolvers Unit Unit Unit :=
  ⟨fun _ _ _ _ _ => (), fun _ _ _ _ => (), fun _ _ _ => ()⟩

/-- Concrete instantiation of the ICP kernels at unit types. -/
def unitIcp : IcpSolvers Unit Unit Unit :=
  ⟨fun _ _ _ _ _ => (), fun _ _ _ _ => (), fun _ _ _ => ()⟩

/-- Concrete parameter records for concrete evaluations. -/
def knnP0 : KnnParams := ⟨1, none, 0⟩

/-- Concrete ICP parameter record for concrete evaluations. -/
def icpP0 : IcpParams := ⟨100, 1000, 1, none, 0, 1/1000000, 3/10⟩

/-- C3: dimension mismatch raises the dimension-mismatch error and, when the
dimensionalities agree, dtype mismatch raises the dtype-mismatch error, in all
three fit functions, for every kernel record (hence before any kernel is
invoked) and with the exact error constructor (never a generic failure). -/
theorem fit_error_kind_exactness {W T N R : Type}
    (gr : RigidSolvers W N R) (gk : KnnSolvers W N R) (gi : IcpSolvers W N R)
    (cloud0 cloud1 : PC W T × Option N) (pk : KnnParams) (pq : IcpParams) :
    (cloud0.1.dims ≠ cloud1.1.dims →
      (fit_rigid_alignment gr cloud0 cloud1).1 = .error .dimensionMismatch ∧
      (fit_knn_alignment gk cloud0 cloud1 pk).1 = .error .dimensionMismatch ∧
      (fit_icp_alignment gi cloud0 cloud1 pq).1 = .error .dimensionMismatch) ∧
    (cloud0.1.dims = cloud1.1.dims → cloud0.1.dtype ≠ cloud1.1.dtype →
      (fit_rigid_alignment gr cloud0 cloud1).1 = .error .dtypeMismatch ∧
      (fit_knn_alignment gk cloud0 cloud1 pk).1 = .error .dtypeMismatch ∧
      (fit_icp_alignment gi cloud0 cloud1 pq).1 = .error .dtypeMismatch) := by
  constructor
  · intro h
    refine ⟨?_, ?_, ?_⟩ <;>
      simp [fit_rigid_alignment, fit_knn_alignment, fit_icp_alignment, h]
  · intro h1 h2
    refine ⟨?_, ?_, ?_⟩ <;>
      simp [fit_rigid_alignment, fit_knn_alignment, fit_icp_alignment, h1, h2]

/-- C3 counterexample: when both the dimensionality and the dtype differ, the
fit functions raise the dimension-mismatch error, not the dtype-mismatch
error, so "the dtype-mismatch error whenever precisions differ" fails as
universally stated. -/
theorem fit_error_kind_counterexample :
    (PC.mk 2 DType.float32 () () : PC Unit Unit).dtype ≠
      (PC.mk 3 DType.float64 () () : PC Unit Unit).dtype ∧
    (fit_rigid_alignment unitRigid (PC.mk 2 DType.float32 () (), none)
        (PC.mk 3 DType.float64 () (), none)).1 = .error .dimensionMismatch ∧
    FitError.dimensionMismatch ≠ FitError.dtypeMismatch :=
  ⟨by decide, rfl, by decide⟩

/-- C3 witness: concrete evaluation of `fit_error_kind_exactness`. -/
theorem fit_error_kind_exactness_witness :
    (fit_rigid_alignment unitRigid (PC.mk 3 DType.float32 () (), none)
        ((PC.mk 3 DType.float64 () () : PC Unit Unit), none)).1 =
      .error .dtypeMismatch :=
  ((fit_error_kind_exactness unitRigid unitKnn unitIcp
      (PC.mk 3 DType.float32 () (), none) (PC.mk 3 DType.float64 () (), none)
      knnP0 icpP0).2 (by decide) (by decide)).1

/-- C4: the alignment mode is a function of which inputs carry normals,
identically in all three fit functions: both inputs with normals select the
normal-weighted kernel, only the target with normals selects the
point-to-plane kernel, and otherwise (no target normals) the point-to-point
kernel is selected; the selected kernel is applied directly to the inputs, so
the mode is fixed for the whole run. -/
theorem alignment_mode_selection {W T N R : Type}
    (gr : RigidSolvers W N R) (gk : KnnSolvers W N R) (gi : IcpSolvers W N R)
    (c0 c1 : PC W T) (n0 n1 : Option N) (pk : KnnParams) (pq : IcpParams)
    (hd : c0.dims = c1.dims) (ht : c0.dtype = c1.dtype)
    (h3 : (n0.isSome ∨ n1.isSome) → c0.dims = 3) :
    (∀ m0 m1, n0 = some m0 → n1 = some m1 →
      (fit_rigid_alignment gr (c0, n0) (c1, n1)).1 =
        .ok (gr.weighted c0.wrapper m0 c1.wrapper m1) ∧
      (fit_knn_alignment gk (c0, n0) (c1, n1) pk).1 =
        .ok (gk.weighted c0.wrapper m0 c1.wrapper m1 pk) ∧
      (fit_icp_alignment gi (c0, n0) (c1, n1) pq).1 =
        .ok (gi.weighted c0.wrapper m0 c1.wrapper m1 pq)) ∧
    (∀ m1, n0 = none → n1 = some m1 →
      (fit_rigid_alignment gr (c0, n0) (c1, n1)).1 =
        .ok (gr.p2plane c0.wrapper c1.wrapper m1) ∧
      (fit_knn_alignment gk (c0, n0) (c1, n1) pk).1 =
        .ok (gk.p2plane c0.wrapper c1.wrapper m1 pk) ∧
      (fit_icp_alignment gi (c0, n0) (c1, n1) pq).1 =
        .ok (gi.p2plane c0.wrapper c1.wrapper m1 pq)) ∧
    (n1 = none →
      (fit_rigid_alignment gr (c0, n0) (c1, n1)).1 =
        .ok (gr.p2p c0.wrapper c1.wrapper) ∧
      (fit_knn_alignment gk (c0, n0) (c1, n1) pk).1 =
        .ok (gk.p2p c0.wrapper c1.wrapper pk) ∧
      (fit_icp_alignment gi (c0, n0) (c1, n1) pq).1 =
        .ok (gi.p2p c0.wrapper c1.wrapper pq)) := by
  refine ⟨?_, ?_, ?_⟩
  · rintro m0 m1 rfl rfl
    have h := h3 (Or.inl rfl)
    have h' : c1.dims = 3 := hd ▸ h
    refine ⟨?_, ?_, ?_⟩ <;>
      simp [fit_rigid_alignment, fit_knn_alignment, fit_icp_alignment,
        hd, ht, h, h']
  · rintro m1 rfl rfl
    have h := h3 (Or.inr rfl)
    have h' : c1.dims = 3 := hd ▸ h
    refine ⟨?_, ?_, ?_⟩ <;>
      simp [fit_rigid_alignment, fit_knn_alignment, fit_icp_alignment,
        hd, ht, h, h']
  · rintro rfl
    rcases n0 with _ | m0
    · refine ⟨?_, ?_, ?_⟩ <;>
        simp [fit_rigid_alignment, fit_knn_alignment, fit_icp_alignment,
          hd, ht]
    · have h := h3 (Or.inl rfl)
      have h' : c1.dims = 3 := hd ▸ h
      refine ⟨?_, ?_, ?_⟩ <;>
        simp [fit_rigid_alignment, fit_knn_alignment, fit_icp_alignment,
          hd, ht, h, h']

/-- C4 witness: concrete evaluation of `alignment_mode_selection` in the
both-normals (normal-weighted) case. -/
theorem alignment_mode_selection_witness :
    (fit_rigid_alignment unitRigid ((PC.mk 3 DType.float32 () () : PC Unit Unit), some ())
        (PC.mk 3 DType.float32 () (), some ())).1 = .ok () :=
  ((alignment_mode_selection unitRigid unitKnn unitIcp
      (PC.mk 3 DType.float32 () ()) (PC.mk 3 DType.float32 () ())
      (some ()) (some ()) knnP0 icpP0 rfl rfl (fun _ => rfl)).1
    () () rfl rfl).1

/-- C5: on 3D inputs where only the source carries normals, all three fit
functions pass validation and dispatch to the plain point-to-point kernel,
and the result is identical to the call without source normals: the source
normals have no effect on the returned transformation. -/
theorem source_normals_ignored {W T N R : Type}
    (gr : RigidSolvers W N R) (gk : KnnSolvers W N R) (gi : IcpSolvers W N R)
    (c0 c1 : PC W T) (n0 : N) (pk : KnnParams) (pq : IcpParams)
    (h0 : c0.dims = 3) (h1 : c1.dims = 3) (ht : c0.dtype = c1.dtype) :
    ((fit_rigid_alignment gr (c0, some n0) (c1, none)).1 =
        .ok (gr.p2p c0.wrapper c1.wrapper) ∧
      (fit_rigid_alignment gr (c0, some n0) (c1, none)).1 =
        (fit_rigid_alignment gr (c0, none) (c1, none)).1) ∧
    ((fit_knn_alignment gk (c0, some n0) (c1, none) pk).1 =
        .ok (gk.p2p c0.wrapper c1.wrapper pk) ∧
      (fit_knn_alignment gk (c0, some n0) (c1, none) pk).1 =
        (fit_knn_alignment gk (c0, none) (c1, none) pk).1) ∧
    ((fit_icp_alignment gi (c0, some n0) (c1, none) pq).1 =
        .ok (gi.p2p c0.wrapper c1.wrapper pq) ∧
      (fit_icp_alignment gi (c0, some n0) (c1, none) pq).1 =
        (fit_icp_alignment gi (c0, none) (c1, none) pq).1) := by
  refine ⟨⟨?_, ?_⟩, ⟨?_, ?_⟩, ⟨?_, ?_⟩⟩ <;>
    simp [fit_rigid_alignment, fit_knn_alignment, fit_icp_alignment,
      h0, h1, ht]

/-- C5 witness: concrete evaluation of `source_normals_ignored`. -/
theorem source_normals_ignored_witness :
    (fit_rigid_alignment unitRigid ((PC.mk 3 DType.float32 () () : PC Unit Unit), some ())
        (PC.mk 3 DType.float32 () (), none)).1 = .ok () :=
  ((source_normals_ignored unitRigid unitKnn unitIcp
      (PC.mk 3 DType.float32 () ()) (PC.mk 3 DType.float32 () ()) ()
      knnP0 icpP0 rfl rfl rfl).1).1

/-- C6: when either argument carries normals, the clouds agree in
dimensionality and dtype, and they are not 3D, all three fit functions fail
with the normals-require-3D error, for every kernel record (hence before any
kernel is invoked). -/
theorem normals_require_threeD {W T N R : Type}
    (gr : RigidSolvers W N R) (gk : KnnSolvers W N R) (gi : IcpSolvers W N R)
    (c0 c1 : PC W T) (n0 n1 : Option N) (pk : KnnParams) (pq : IcpParams)
    (hd : c0.dims = c1.dims) (ht : c0.dtype = c1.dtype)
    (hn : n0.isSome ∨ n1.isSome) (h3 : c0.dims ≠ 3) :
    (fit_rigid_alignment gr (c0, n0) (c1, n1)).1 = .error .normalsRequireThreeD ∧
    (fit_knn_alignment gk (c0, n0) (c1, n1) pk).1 = .error .normalsRequireThreeD ∧
    (fit_icp_alignment gi (c0, n0) (c1, n1) pq).1 = .error .normalsRequireThreeD := by
  have h3' : c1.dims ≠ 3 := hd ▸ h3
  refine ⟨?_, ?_, ?_⟩ <;>
    simp [fit_rigid_alignment, fit_knn_alignment, fit_icp_alignment,
      hd, ht, hn, h3, h3']

/-- C6 counterexample: two 2D clouds (not 3D) with target normals but with
differing dtypes fail with the dtype-mismatch error, not the
normals-require-3D error, so the claim fails as universally stated. -/
theorem normals_require_threeD_counterexample :
    (PC.mk 2 DType.float32 () () : PC Unit Unit).dims ≠ 3 ∧
    (PC.mk 2 DType.float64 () () : PC Unit Unit).dims ≠ 3 ∧
    (fit_rigid_alignment unitRigid (PC.mk 2 DType.float32 () (), none)
        (PC.mk 2 DType.float64 () (), some ())).1 = .error .dtypeMismatch ∧
    FitError.dtypeMismatch ≠ FitError.normalsRequireThreeD :=
  ⟨by decide, by decide, rfl, by decide⟩

/-- C6 witness: concrete evaluation of `normals_require_threeD`. -/
theorem normals_require_threeD_witness :
    (fit_rigid_alignment unitRigid ((PC.mk 2 DType.float32 () () : PC Unit Unit), none)
        (PC.mk 2 DType.float32 () (), some ())).1 = .error .normalsRequireThreeD :=
  (normals_require_threeD unitRigid unitKnn unitIcp
      (PC.mk 2 DType.float32 () ()) (PC.mk 2 DType.float32 () ())
      none (some ()) knnP0 icpP0 rfl rfl (by decide) (by decide)).1

/-- C8: none of the three fit functions mutates the caller's point clouds or
their stored transformation fields — the state components of each call are
returned unchanged for every input, valid or not — and on a valid
point-to-point call the returned value is exactly the kernel's standalone
delta, with no composition with the clouds' stored transformations applied. -/
theorem fit_functions_no_mutation {W T N R : Type}
    (gr : RigidSolvers W N R) (gk : KnnSolvers W N R) (gi : IcpSolvers W N R)
    (cloud0 cloud1 : PC W T × Option N) (pk : KnnParams) (pq : IcpParams) :
    ((fit_rigid_alignment gr cloud0 cloud1).2 = (cloud0, cloud1) ∧
      (fit_knn_alignment gk cloud0 cloud1 pk).2 = (cloud0, cloud1) ∧
      (fit_icp_alignment gi cloud0 cloud1 pq).2 = (cloud0, cloud1)) ∧
    (cloud0.1.dims = cloud1.1.dims → cloud0.1.dtype = cloud1.1.dtype →
      cloud0.2 = none → cloud1.2 = none →
      (fit_rigid_alignment gr cloud0 cloud1).1 =
        .ok (gr.p2p cloud0.1.wrapper cloud1.1.wrapper) ∧
      (fit_knn_alignment gk cloud0 cloud1 pk).1 =
        .ok (gk.p2p cloud0.1.wrapper cloud1.1.wrapper pk) ∧
      (fit_icp_alignment gi cloud0 cloud1 pq).1 =
        .ok (gi.p2p cloud0.1.wrapper cloud1.1.wrapper pq)) := by
  refine ⟨⟨rfl, rfl, rfl⟩, ?_⟩
  intro hd ht h0 h1
  refine ⟨?_, ?_, ?_⟩ <;>
    simp [fit_rigid_alignment, fit_knn_alignment, fit_icp_alignment,
      hd, ht, h0, h1]

/-- C8 witness: concrete evaluation of `fit_functions_no_mutation`. -/
theorem fit_functions_no_mutation_witness :
    (fit_rigid_alignment unitRigid ((PC.mk 3 DType.float32 () () : PC Unit Unit), none)
        (PC.mk 3 DType.float32 () (), none)).2 =
      ((PC.mk 3 DType.float32 () (), none), (PC.mk 3 DType.float32 () (), none)) :=
  ((fit_functions_no_mutation unitRigid unitKnn unitIcp
      (PC.mk 3 DType.float32 () (), none) (PC.mk 3 DType.float32 () (), none)
      knnP0 icpP0).1).1

/-- Modelled from the spec: relative improvement of the error,
rel = (E_prev − E_cur) / E_prev, with the guard rel = 0 when E_prev = 0
(spec §4.5 step (8); the native iterative kernel is absent from src/). -/
def relImprovement (ePrev e : ℚ) : ℚ :=
  if ePrev = 0 then 0 else (ePrev - e) / ePrev

/-- Convergence-tracker state of one iterative call: the accumulated delta
transform, the previous error value, the current EMA of relative improvement,
and the number of completed iterations (spec §3, ConvergenceState). -/
structure LoopSt (D : Type) : Type where
  accum : D
  prevE : ℚ
  ema : ℚ
  done : ℕ
deriving DecidableEq, Repr

/-- Modelled from the spec: one ICP iteration (spec §4.5 steps (2)-(9)).
The oracle bundles subsampling, correspondence search, weighting, outlier
rejection, residual computation and the incremental solve: from the iteration
index and the accumulated transform it yields (E_t, δ_t).  The controller then
composes T ← δ_t·T, computes rel, and updates the EMA (EMA initialized from
the first rel). -/
def icpStep {D : Type} (comp : D → D → D) (oracle : ℕ → D → ℚ × D)
    (alpha : ℚ) (st : LoopSt D) : LoopSt D :=
  let q := oracle st.done st.accum
  let rel := relImprovement st.prevE q.1
  ⟨comp q.2 st.accum, q.1,
    if st.done = 0 then rel else alpha * rel + (1 - alpha) * st.ema,
    st.done + 1⟩

/-- Modelled from the spec: the iterative loop (spec §4.5 steps (10)-(11)).
Runs up to `fuel` more iterations, stopping with `true` (Converged) as soon as
the post-iteration EMA drops below `minRel`, and with `false`
(MaxIterationsReached) when the fuel is exhausted. -/
def icpGo {D : Type} (comp : D → D → D) (oracle : ℕ → D → ℚ × D)
    (alpha minRel : ℚ) : ℕ → LoopSt D → LoopSt D × Bool
  | 0, st => (st, false)
  | n + 1, st =>
    let st' := icpStep comp oracle alpha st
    if st'.ema < minRel then (st', true)
    else icpGo comp oracle alpha minRel n st'

/-- Modelled from the spec: the iterative entry point's loop, started from the
initial accumulated transform `d0` (identity) and initial error `e0`, running
at most `maxIter` iterations. -/
def icpRun {D : Type} (comp : D → D → D) (oracle : ℕ → D → ℚ × D)
    (alpha minRel : ℚ) (maxIter : ℕ) (d0 : D) (e0 : ℚ) : LoopSt D × Bool :=
  icpGo comp oracle alpha minRel maxIter ⟨d0, e0, 0, 0⟩

/-- The claim's recurrences, written directly as a recursive trace: after `t`
iterations, `(icpTrace … t)` is (accumulated transform T_t, error E_t,
EMA_t), with E_0 = e0, rel_t = relImprovement E_{t−1} E_t,
EMA_1 = rel_1 and EMA_t = alpha·rel_t + (1−alpha)·EMA_{t−1} for t ≥ 2. -/
def icpTrace {D : Type} (comp : D → D → D) (oracle : ℕ → D → ℚ × D)
    (alpha : ℚ) (d0 : D) (e0 : ℚ) : ℕ → D × ℚ × ℚ
  | 0 => (d0, e0, 0)
  | t + 1 =>
    let p := icpTrace comp oracle alpha d0 e0 t
    let q := oracle t p.1
    let rel := relImprovement p.2.1 q.1
    (comp q.2 p.1, q.1,
      if t = 0 then rel else alpha * rel + (1 - alpha) * p.2.2)

/-- The loop state reached after `t` iterations, per the trace. -/
def icpStateAt {D : Type} (comp : D → D → D) (oracle : ℕ → D → ℚ × D)
    (alpha : ℚ) (d0 : D) (e0 : ℚ) (t : ℕ) : LoopSt D :=
  ⟨(icpTrace comp oracle alpha d0 e0 t).1,
   (icpTrace comp oracle alpha d0 e0 t).2.1,
   (icpTrace comp oracle alpha d0 e0 t).2.2, t⟩

theorem icpStep_stateAt {D : Type} (comp : D → D → D)
    (oracle : ℕ → D → ℚ × D) (alpha : ℚ) (d0 : D) (e0 : ℚ) (t : ℕ) :
    icpStep comp oracle alpha (icpStateAt comp oracle alpha d0 e0 t) =
      icpStateAt comp oracle alpha d0 e0 (t + 1) := by
  simp [icpStep, icpStateAt, icpTrace]

/-- Invariant characterization of `icpGo` started from the state after `t`
iterations with `n` units of fuel. -/
theorem icpGo_spec {D : Type} (comp : D → D → D) (oracle : ℕ → D → ℚ × D)
    (alpha minRel : ℚ) (d0 : D) (e0 : ℚ) :
    ∀ (n t : ℕ),
      (icpGo comp oracle alpha minRel n
          (icpStateAt comp oracle alpha d0 e0 t)).1.done ≤ t + n ∧
      t ≤ (icpGo comp oracle alpha minRel n
          (icpStateAt comp oracle alpha d0 e0 t)).1.done ∧
      (icpGo comp oracle alpha minRel n
          (icpStateAt comp oracle alpha d0 e0 t)).1 =
        icpStateAt comp oracle alpha d0 e0
          (icpGo comp oracle alpha minRel n
            (icpStateAt comp oracle alpha d0 e0 t)).1.done ∧
      ((icpGo comp oracle alpha minRel n
          (icpStateAt comp oracle alpha d0 e0 t)).2 = true →
        (icpTrace comp oracle alpha d0 e0
          (icpGo comp oracle alpha minRel n
            (icpStateAt comp oracle alpha d0 e0 t)).1.done).2.2 < minRel ∧
        t < (icpGo comp oracle alpha minRel n
            (icpStateAt comp oracle alpha d0 e0 t)).1.done) ∧
      (∀ s, t < s →
        s < (icpGo comp oracle alpha minRel n
            (icpStateAt comp oracle alpha d0 e0 t)).1.done →
        ¬ (icpTrace comp oracle alpha d0 e0 s).2.2 < minRel) ∧
      ((icpGo comp oracle alpha minRel n
          (icpStateAt comp oracle alpha d0 e0 t)).2 = false →
        (icpGo comp oracle alpha minRel n
            (icpStateAt comp oracle alpha d0 e0 t)).1.done = t + n ∧
        ∀ s, t < s → s ≤ t + n →
          ¬ (icpTrace comp oracle alpha d0 e0 s).2.2 < minRel) := by
  intro n
  induction n with
  | zero =>
    intro t
    refine ⟨Nat.le_refl t, Nat.le_refl t, rfl, by simp [icpGo], ?_, ?_⟩
    · intro s hs hs'
      exact absurd (hs.trans hs') (by simp [icpGo, icpStateAt])
    · intro _
      refine ⟨rfl, ?_⟩
      intro s hs hs'
      omega
  | succ n ih =>
    intro t
    rw [show icpGo comp oracle alpha minRel (n + 1)
          (icpStateAt comp oracle alpha d0 e0 t) =
        (let st' := icpStep comp oracle alpha
            (icpStateAt comp oracle alpha d0 e0 t);
         if st'.ema < minRel then (st', true)
         else icpGo comp oracle alpha minRel n st') from rfl]
    rw [icpStep_stateAt comp oracle alpha d0 e0 t]
    by_cases hP : (icpStateAt comp oracle alpha d0 e0 (t + 1)).ema < minRel
    · simp only [hP, if_pos]
      refine ⟨by show t + 1 ≤ t + (n + 1); omega,
        by show t ≤ t + 1; omega, rfl, ?_, ?_, ?_⟩
      · intro _
        exact ⟨hP, by show t < t + 1; omega⟩
      · intro s hs hs'
        have : s < t + 1 := hs'
        omega
      · intro h
        exact absurd h (by simp)
    · simp only [hP, if_neg, if_false]
      obtain ⟨h1, h2, h3, h4, h5, h6⟩ := ih (t + 1)
      refine ⟨by omega, by omega, h3, ?_, ?_, ?_⟩
      · intro h
        obtain ⟨ha, hb⟩ := h4 h
        exact ⟨ha, by omega⟩
      · intro s hs hs'
        rcases Nat.lt_or_ge s (t + 1) with hlt | hge
        · omega
        · rcases Nat.eq_or_lt_of_le hge with rfl | hgt
          · simpa [icpStateAt] using hP
          · exact h5 s hgt hs'
      · intro h
        obtain ⟨ha, hb⟩ := h6 h
        refine ⟨by omega, ?_⟩
        intro s hs hs'
        rcases Nat.eq_or_lt_of_le hs with rfl | hgt
        · exact fun hc => hP (by simpa [icpStateAt] using hc)
        · exact hb s hgt (by omega)

/-- C2: the iterative loop executes at most `maxIter` iterations; its state
follows the claimed recurrences (rel with the E=0 guard, EMA initialized from
the first rel and updated by EMA_t = alpha·rel_t + (1−alpha)·EMA_{t−1}); it
stops before `maxIter` exactly when the EMA drops below the threshold (at the
first such iteration); and in either stopping case the result carries the
accumulated delta transform of the executed iterations. -/
theorem icp_loop_spec {D : Type} (comp : D → D → D) (oracle : ℕ → D → ℚ × D)
    (alpha minRel : ℚ) (d0 : D) (e0 : ℚ) (maxIter : ℕ) (hmax : 1 ≤ maxIter) :
    (icpRun comp oracle alpha minRel maxIter d0 e0).1.done ≤ maxIter ∧
    (icpRun comp oracle alpha minRel maxIter d0 e0).1 =
      icpStateAt comp oracle alpha d0 e0
        (icpRun comp oracle alpha minRel maxIter d0 e0).1.done ∧
    (icpRun comp oracle alpha minRel maxIter d0 e0).1.accum =
      (icpTrace comp oracle alpha d0 e0
        (icpRun comp oracle alpha minRel maxIter d0 e0).1.done).1 ∧
    (icpTrace comp oracle alpha d0 e0 1).2.2 =
      relImprovement e0 (oracle 0 d0).1 ∧
    (∀ t, (icpTrace comp oracle alpha d0 e0 (t + 2)).2.2 =
      alpha * relImprovement (icpTrace comp oracle alpha d0 e0 (t + 1)).2.1
          (oracle (t + 1) (icpTrace comp oracle alpha d0 e0 (t + 1)).1).1 +
        (1 - alpha) * (icpTrace comp oracle alpha d0 e0 (t + 1)).2.2) ∧
    (∀ e, relImprovement 0 e = 0) ∧
    (∀ ePrev e, ePrev ≠ 0 → relImprovement ePrev e = (ePrev - e) / ePrev) ∧
    ((icpRun comp oracle alpha minRel maxIter d0 e0).1.done < maxIter ↔
      ∃ s, 0 < s ∧ s < maxIter ∧
        (icpTrace comp oracle alpha d0 e0 s).2.2 < minRel) ∧
    ((icpRun comp oracle alpha minRel maxIter d0 e0).2 = true →
      (icpTrace comp oracle alpha d0 e0
        (icpRun comp oracle alpha minRel maxIter d0 e0).1.done).2.2 < minRel) ∧
    (∀ s, 0 < s → s < (icpRun comp oracle alpha minRel maxIter d0 e0).1.done →
      ¬ (icpTrace comp oracle alpha d0 e0 s).2.2 < minRel) := by
  have hrun : icpRun comp oracle alpha minRel maxIter d0 e0 =
      icpGo comp oracle alpha minRel maxIter
        (icpStateAt comp oracle alpha d0 e0 0) := rfl
  obtain ⟨h1, h2, h3, h4, h5, h6⟩ :=
    icpGo_spec comp oracle alpha minRel d0 e0 maxIter 0
  rw [hrun]
  refine ⟨by omega, h3, by rw [h3]; rfl, by simp [icpTrace], ?_, ?_, ?_,
    ?_, fun h => (h4 h).1, fun s hs => h5 s hs⟩
  · intro t
    conv_lhs => rw [icpTrace]
    simp
  · intro e
    simp [relImprovement]
  · intro ePrev e h
    simp [relImprovement, h]
  · constructor
    · intro hlt
      rcases Bool.eq_false_or_eq_true
          (icpGo comp oracle alpha minRel maxIter
            (icpStateAt comp oracle alpha d0 e0 0)).2 with hT | hF
      · obtain ⟨ha, hb⟩ := h4 hT
        exact ⟨_, hb, hlt, ha⟩
      · obtain ⟨ha, _⟩ := h6 hF
        omega
    · rintro ⟨s, hs0, hsm, hsc⟩
      by_contra hge
      have hdone : (icpGo comp oracle alpha minRel maxIter
          (icpStateAt comp oracle alpha d0 e0 0)).1.done = maxIter := by omega
      rcases Bool.eq_false_or_eq_true
          (icpGo comp oracle alpha minRel maxIter
            (icpStateAt comp oracle alpha d0 e0 0)).2 with hT | hF
      · exact h5 s hs0 (by omega) hsc
      · exact (h6 hF).2 s hs0 (by omega) hsc

/-- C2 witness: concrete evaluation of `icp_loop_spec`. -/
theorem icp_loop_spec_witness :
    (icpRun (fun a b : ℚ => a * b) (fun _ _ => ((0 : ℚ), (1 : ℚ)))
      (3 / 10) (1 / 1000000) 5 (1 : ℚ) 1).1.done ≤ 5 :=
  (icp_loop_spec (fun a b : ℚ => a * b) (fun _ _ => ((0 : ℚ), (1 : ℚ)))
    (3 / 10) (1 / 1000000) 1 1 5 (by decide)).1

/-- Modelled from the spec: the native iterative kernel (absent from src/)
validates k ≥ 1, 0 ≤ outlier_proportion < 1 and max_iterations ≥ 1 once at
entry (spec §4.5 validation list, §7 `InvalidParameter`), and only on success
runs the iterative loop. -/
def icpNative {D : Type} (comp : D → D → D) (oracle : ℕ → D → ℚ × D)
    (d0 : D) (e0 : ℚ) (p : IcpParams) : Except FitError (LoopSt D × Bool) :=
  if p.k < 1 ∨ p.outlierProportion < 0 ∨ 1 ≤ p.outlierProportion ∨
      p.maxIterations < 1 then
    .error .invalidParameter
  else
    .ok (icpRun comp oracle p.emaAlpha p.minRelativeImprovement
      p.maxIterations.toNat d0 e0)

/-- The full iterative entry point: the source's `fit_icp_alignment` wrapper
with each of its three kernels instantiated by the modelled native loop
(`icpNative`); a kernel error propagates out of the wrapper like the Python
exception.  `init`/`initialErr` abstract the kernel's setup of the initial
accumulated transform and initial error from the two native payloads. -/
def fit_icp_full {W T N D : Type} (comp : D → D → D) (oracle : ℕ → D → ℚ × D)
    (init : W → W → D) (initialErr : W → W → ℚ)
    (cloud0 cloud1 : PC W T × Option N) (p : IcpParams) :
    Except FitError (LoopSt D × Bool) ×
      (PC W T × Option N) × (PC W T × Option N) :=
  let r := fit_icp_alignment
    ⟨fun w0 _ w1 _ q => icpNative comp oracle (init w0 w1) (initialErr w0 w1) q,
     fun w0 w1 _ q => icpNative comp oracle (init w0 w1) (initialErr w0 w1) q,
     fun w0 w1 q => icpNative comp oracle (init w0 w1) (initialErr w0 w1) q⟩
    cloud0 cloud1 p
  (match r.1 with
   | .error err => .error err
   | .ok inner => inner, r.2)

/-- C1: on clouds passing the cloud-level checks, any call of the iterative
entry point with k < 1, outlier_proportion outside [0, 1), or
max_iterations < 1 fails with the invalid-parameter error; the conclusion
holds for every composition, per-iteration oracle and initialization, so no
iteration or other computation contributes to the result. -/
theorem icp_invalid_parameter_rejection {W T N D : Type}
    (comp : D → D → D) (oracle : ℕ → D → ℚ × D)
    (init : W → W → D) (initialErr : W → W → ℚ)
    (cloud0 cloud1 : PC W T × Option N) (p : IcpParams)
    (hd : cloud0.1.dims = cloud1.1.dims)
    (ht : cloud0.1.dtype = cloud1.1.dtype)
    (h3 : (cloud0.2.isSome ∨ cloud1.2.isSome) → cloud0.1.dims = 3)
    (hbad : p.k < 1 ∨ p.outlierProportion < 0 ∨ 1 ≤ p.outlierProportion ∨
      p.maxIterations < 1) :
    (fit_icp_full comp oracle init initialErr cloud0 cloud1 p).1 =
      .error .invalidParameter := by
  rcases cloud0 with ⟨c0, n0⟩
  rcases cloud1 with ⟨c1, n1⟩
  simp only at hd ht h3
  rcases n0 with _ | m0 <;> rcases n1 with _ | m1
  · simp [fit_icp_full, fit_icp_alignment, icpNative, hd, ht, hbad]
  · have h := h3 (Or.inr rfl)
    have h' : c1.dims = 3 := hd ▸ h
    simp [fit_icp_full, fit_icp_alignment, icpNative, hd, ht, h, h', hbad]
  · have h := h3 (Or.inl rfl)
    have h' : c1.dims = 3 := hd ▸ h
    simp [fit_icp_full, fit_icp_alignment, icpNative, hd, ht, h, h', hbad]
  · have h := h3 (Or.inl rfl)
    have h' : c1.dims = 3 := hd ▸ h
    simp [fit_icp_full, fit_icp_alignment, icpNative, hd, ht, h, h', hbad]

/-- C1 witness: concrete rejection of k = 0. -/
theorem icp_invalid_parameter_rejection_witness :
    (fit_icp_full (fun a b : ℚ => a * b) (fun _ _ => ((0 : ℚ), (1 : ℚ)))
      (fun _ _ : Unit => (1 : ℚ)) (fun _ _ : Unit => (1 : ℚ))
      ((PC.mk 3 DType.float32 () () : PC Unit Unit), (none : Option Unit))
      (PC.mk 3 DType.float32 () (), none)
      ⟨100, 1000, 0, none, 0, 1 / 1000000, 3 / 10⟩).1 =
      .error .invalidParameter :=
  icp_invalid_parameter_rejection (fun a b : ℚ => a * b)
    (fun _ _ => ((0 : ℚ), (1 : ℚ))) (fun _ _ : Unit => (1 : ℚ))
    (fun _ _ : Unit => (1 : ℚ))
    (PC.mk 3 DType.float32 () (), none) (PC.mk 3 DType.float32 () (), none)
    ⟨100, 1000, 0, none, 0, 1 / 1000000, 3 / 10⟩
    rfl rfl (fun _ => rfl) (Or.inl (by decide))

/-- C1 counterexample: a call whose clouds differ in dimensionality and whose
k = 0 is invalid fails with the dimension-mismatch error raised by the
wrapper's cloud checks, not the invalid-parameter error, so "fails with an
invalid-parameter error whenever k < 1" is false as universally stated. -/
theorem icp_invalid_parameter_counterexample :
    (⟨100, 1000, 0, none, 0, 1 / 1000000, 3 / 10⟩ : IcpParams).k < 1 ∧
    (fit_icp_full (fun a b : ℚ => a * b) (fun _ _ => ((0 : ℚ), (1 : ℚ)))
      (fun _ _ : Unit => (1 : ℚ)) (fun _ _ : Unit => (1 : ℚ))
      ((PC.mk 2 DType.float32 () () : PC Unit Unit), (none : Option Unit))
      (PC.mk 3 DType.float32 () (), none)
      ⟨100, 1000, 0, none, 0, 1 / 1000000, 3 / 10⟩).1 =
      .error .dimensionMismatch ∧
    FitError.dimensionMismatch ≠ FitError.invalidParameter :=
  ⟨by decide, rfl, by decide⟩

/-- 3×3 rational matrices, the exact-arithmetic model of the solver's
rotation blocks. -/
abbrev Mat3 := Matrix (Fin 3) (Fin 3) ℚ

/-- Modelled from the spec: negating the last column of V (the reflection
correction of the point-to-point solver, spec §4.4; the native solver is
absent from src/) is right-multiplication by diag(1, 1, −1). -/
def flipLast : Mat3 := Matrix.diagonal ![1, 1, -1]

/-- Modelled from the spec: the Kabsch/Procrustes rotation from the SVD
factors U, V of the cross-covariance: R = V Uᵀ; if det R < 0, negate the last
column of V and recompute R (spec §4.4). -/
def kabschRotation (U V : Mat3) : Mat3 :=
  let R := V * U.transpose
  if R.det < 0 then (V * flipLast) * U.transpose else R

/-- Modelled from the spec: translation = c_t − R·c_s (spec §4.4). -/
def kabschTranslation (R : Mat3) (cs ct : Fin 3 → ℚ) : Fin 3 → ℚ :=
  ct - R.mulVec cs

/-- Modelled from the spec: assembly of the homogeneous 4×4 transform with
rotation block R, translation column t, and bottom row [0,0,0,1]
(spec §3, Transformation). -/
def toHomogeneous (R : Mat3) (t : Fin 3 → ℚ) : Matrix (Fin 4) (Fin 4) ℚ :=
  !![R 0 0, R 0 1, R 0 2, t 0;
     R 1 0, R 1 1, R 1 2, t 1;
     R 2 0, R 2 1, R 2 2, t 2;
     0, 0, 0, 1]

theorem orthMul (A B : Mat3) (hA : A * A.transpose = 1)
    (hB : B * B.transpose = 1) : (A * B) * (A * B).transpose = 1 := by
  rw [Matrix.transpose_mul, ← Matrix.mul_assoc, Matrix.mul_assoc A B,
    hB, Matrix.mul_one, hA]

theorem orthTranspose (A : Mat3) (hA : A * A.transpose = 1) :
    A.transpose * A.transpose.transpose = 1 := by
  rw [Matrix.transpose_transpose]
  exact Matrix.mul_eq_one_comm.mp hA

theorem flipLast_orth : flipLast * flipLast.transpose = 1 := by
  rw [flipLast, Matrix.diagonal_transpose, Matrix.diagonal_mul_diagonal]
  ext i j
  fin_cases i <;> fin_cases j <;>
    simp [Matrix.diagonal, Matrix.one_apply]

theorem flipLast_det : flipLast.det = -1 := by
  rw [flipLast, Matrix.det_diagonal, Fin.prod_univ_three]
  norm_num

theorem det_mul_self_one (A : Mat3) (hA : A * A.transpose = 1) :
    A.det * A.det = 1 := by
  have h := congrArg Matrix.det hA
  rwa [Matrix.det_mul, Matrix.det_transpose, Matrix.det_one] at h

/-- The Kabsch/Procrustes rotation with reflection correction is exactly
orthogonal with determinant exactly +1 whenever the SVD factors are
orthogonal. -/
theorem kabschRotation_rigid (U V : Mat3) (hU : U * U.transpose = 1)
    (hV : V * V.transpose = 1) :
    kabschRotation U V * (kabschRotation U V).transpose = 1 ∧
    (kabschRotation U V).det = 1 := by
  have hUt := orthTranspose U hU
  have hdU : U.det = 1 ∨ U.det = -1 :=
    mul_self_eq_one_iff.mp (det_mul_self_one U hU)
  have hdV : V.det = 1 ∨ V.det = -1 :=
    mul_self_eq_one_iff.mp (det_mul_self_one V hV)
  constructor
  · rw [kabschRotation]
    by_cases h : (V * U.transpose).det < 0
    · simp only [h, if_pos]
      exact orthMul (V * flipLast) U.transpose
        (orthMul V flipLast hV flipLast_orth) hUt
    · simp only [h, if_neg, if_false]
      exact orthMul V U.transpose hV hUt
  · rw [kabschRotation]
    by_cases h : (V * U.transpose).det < 0
    · simp only [h, if_pos]
      rw [Matrix.det_mul, Matrix.det_mul, flipLast_det,
        Matrix.det_transpose]
      rw [Matrix.det_mul, Matrix.det_transpose] at h
      rcases hdU with h1 | h1 <;> rcases hdV with h2 | h2 <;>
        rw [h1, h2] <;> rw [h1, h2] at h <;> norm_num at h ⊢
    · simp only [h, if_neg, if_false]
      rw [Matrix.det_mul, Matrix.det_transpose]
      rw [Matrix.det_mul, Matrix.det_transpose] at h
      rcases hdU with h1 | h1 <;> rcases hdV with h2 | h2 <;>
        rw [h1, h2] <;> rw [h1, h2] at h <;> norm_num at h ⊢

/-- Modelled from the spec: the skew-symmetric cross-product matrix [k]ₓ of
the rotation axis (spec §4.4, point-to-plane solver). -/
def skew3 (k : Fin 3 → ℚ) : Mat3 :=
  !![0, -k 2, k 1;
     k 2, 0, -k 0;
     -k 1, k 0, 0]

/-- Modelled from the spec: the exact rotation formula (Rodrigues) by which
the point-to-plane and normal-weighted solvers reconstruct R from the solved
rotation vector ω (spec §4.4): with c = cos‖ω‖, s = sin‖ω‖ and unit axis
k = ω/‖ω‖, R = c·I + s·[k]ₓ + (1−c)·k·kᵀ, written out entrywise.  In exact
arithmetic this matrix is already orthonormal with det +1, the property the
spec's re-orthonormalization step restores under floating point. -/
def rodrigues (c s : ℚ) (k : Fin 3 → ℚ) : Mat3 :=
  !![c + (1 - c) * k 0 ^ 2, (1 - c) * k 0 * k 1 - s * k 2,
       (1 - c) * k 0 * k 2 + s * k 1;
     (1 - c) * k 0 * k 1 + s * k 2, c + (1 - c) * k 1 ^ 2,
       (1 - c) * k 1 * k 2 - s * k 0;
     (1 - c) * k 0 * k 2 - s * k 1, (1 - c) * k 1 * k 2 + s * k 0,
       c + (1 - c) * k 2 ^ 2]

/-- The entrywise `rodrigues` matrix equals the textbook form
c·I + s·[k]ₓ + (1−c)·k·kᵀ. -/
theorem rodrigues_eq_axis_form (c s : ℚ) (k : Fin 3 → ℚ) :
    rodrigues c s k =
      c • (1 : Mat3) + s • skew3 k + (1 - c) • Matrix.vecMulVec k k := by
  ext i j
  fin_cases i <;> fin_cases j <;>
    · simp [rodrigues, skew3, Matrix.vecMulVec, Matrix.one_apply,
        Matrix.vecHead, Matrix.vecTail]
      try ring
      try exact Or.inl trivial

theorem rodrigues_orth (c s : ℚ) (k : Fin 3 → ℚ)
    (hcs : c ^ 2 + s ^ 2 = 1) (hk : k 0 ^ 2 + k 1 ^ 2 + k 2 ^ 2 = 1) :
    rodrigues c s k * (rodrigues c s k).transpose = 1 := by
  ext i j
  rw [Matrix.mul_apply, Matrix.transpose]
  fin_cases i <;> fin_cases j
  · simp [rodrigues, Fin.sum_univ_three, Matrix.vecHead, Matrix.vecTail,
      Matrix.one_apply]
    linear_combination (c ^ 2 * k 0 ^ 2 - c ^ 2 - 2 * c * k 0 ^ 2 + k 0 ^ 2
      + 1) * hk + (k 1 ^ 2 + k 2 ^ 2) * hcs
  · simp [rodrigues, Fin.sum_univ_three, Matrix.vecHead, Matrix.vecTail,
      Matrix.one_apply]
    linear_combination (c ^ 2 * k 0 * k 1 - 2 * c * k 0 * k 1
      + k 0 * k 1) * hk + (-(k 0 * k 1)) * hcs
  · simp [rodrigues, Fin.sum_univ_three, Matrix.vecHead, Matrix.vecTail,
      Matrix.one_apply]
    linear_combination (c ^ 2 * k 0 * k 2 - 2 * c * k 0 * k 2
      + k 0 * k 2) * hk + (-(k 0 * k 2)) * hcs
  · simp [rodrigues, Fin.sum_univ_three, Matrix.vecHead, Matrix.vecTail,
      Matrix.one_apply]
    linear_combination (c ^ 2 * k 0 * k 1 - 2 * c * k 0 * k 1
      + k 0 * k 1) * hk + (-(k 0 * k 1)) * hcs
  · simp [rodrigues, Fin.sum_univ_three, Matrix.vecHead, Matrix.vecTail,
      Matrix.one_apply]
    linear_combination (c ^ 2 * k 1 ^ 2 - 2 * c * k 1 ^ 2 + s ^ 2
      + k 1 ^ 2) * hk + (-(k 1 ^ 2) + 1) * hcs
  · simp [rodrigues, Fin.sum_univ_three, Matrix.vecHead, Matrix.vecTail,
      Matrix.one_apply]
    linear_combination (c ^ 2 * k 1 * k 2 - 2 * c * k 1 * k 2
      + k 1 * k 2) * hk + (-(k 1 * k 2)) * hcs
  · simp [rodrigues, Fin.sum_univ_three, Matrix.vecHead, Matrix.vecTail,
      Matrix.one_apply]
    linear_combination (c ^ 2 * k 0 * k 2 - 2 * c * k 0 * k 2
      + k 0 * k 2) * hk + (-(k 0 * k 2)) * hcs
  · simp [rodrigues, Fin.sum_univ_three, Matrix.vecHead, Matrix.vecTail,
      Matrix.one_apply]
    linear_combination (c ^ 2 * k 1 * k 2 - 2 * c * k 1 * k 2
      + k 1 * k 2) * hk + (-(k 1 * k 2)) * hcs
  · simp [rodrigues, Fin.sum_univ_three, Matrix.vecHead, Matrix.vecTail,
      Matrix.one_apply]
    linear_combination (c ^ 2 * k 2 ^ 2 - 2 * c * k 2 ^ 2 + s ^ 2
      + k 2 ^ 2) * hk + (-(k 2 ^ 2) + 1) * hcs

theorem rodrigues_det (c s : ℚ) (k : Fin 3 → ℚ)
    (hcs : c ^ 2 + s ^ 2 = 1) (hk : k 0 ^ 2 + k 1 ^ 2 + k 2 ^ 2 = 1) :
    (rodrigues c s k).det = 1 := by
  rw [Matrix.det_fin_three]
  simp [rodrigues, Matrix.vecHead, Matrix.vecTail]
  linear_combination (-(c ^ 3) + c ^ 2 - c * s ^ 2 * k 0 ^ 2
    - c * s ^ 2 * k 1 ^ 2 - c * s ^ 2 * k 2 ^ 2 + s ^ 2 * k 0 ^ 2
    + s ^ 2 * k 1 ^ 2 + s ^ 2 * k 2 ^ 2 + s ^ 2) * hk + hcs

/-- The 3×3 rotation block of a homogeneous 4×4 transform. -/
def rotBlock (T : Matrix (Fin 4) (Fin 4) ℚ) : Mat3 :=
  !![T 0 0, T 0 1, T 0 2;
     T 1 0, T 1 1, T 1 2;
     T 2 0, T 2 1, T 2 2]

/-- The spec's §3 Transformation invariant for a homogeneous 4×4 transform:
bottom row [0,0,0,1] and an exactly orthogonal rotation block with
determinant +1. -/
def IsRigid (T : Matrix (Fin 4) (Fin 4) ℚ) : Prop :=
  (∀ j, T 3 j = ![0, 0, 0, 1] j) ∧
  rotBlock T * (rotBlock T).transpose = 1 ∧
  (rotBlock T).det = 1

theorem toHomogeneous_bottom (R : Mat3) (t : Fin 3 → ℚ) :
    ∀ j, toHomogeneous R t 3 j = ![0, 0, 0, 1] j := by
  intro j
  fin_cases j <;> rfl

theorem rotBlock_toHomogeneous (R : Mat3) (t : Fin 3 → ℚ) :
    rotBlock (toHomogeneous R t) = R := by
  ext i j
  fin_cases i <;> fin_cases j <;> rfl

theorem isRigid_toHomogeneous (R : Mat3) (t : Fin 3 → ℚ)
    (ho : R * R.transpose = 1) (hd : R.det = 1) :
    IsRigid (toHomogeneous R t) := by
  refine ⟨toHomogeneous_bottom R t, ?_, ?_⟩
  · rw [rotBlock_toHomogeneous]
    exact ho
  · rw [rotBlock_toHomogeneous]
    exact hd

theorem bottom_mul (T1 T2 : Matrix (Fin 4) (Fin 4) ℚ)
    (h1 : ∀ j, T1 3 j = ![0, 0, 0, 1] j)
    (h2 : ∀ j, T2 3 j = ![0, 0, 0, 1] j) :
    ∀ j, (T1 * T2) 3 j = ![0, 0, 0, 1] j := by
  have a0 := h1 0
  have a1 := h1 1
  have a2 := h1 2
  have a3 := h1 3
  simp at a0 a1 a2 a3
  intro j
  rw [Matrix.mul_apply, Fin.sum_univ_four, a0, a1, a2, a3]
  simp [h2 j]

theorem rotBlock_mul (T1 T2 : Matrix (Fin 4) (Fin 4) ℚ)
    (h2 : ∀ j, T2 3 j = ![0, 0, 0, 1] j) :
    rotBlock (T1 * T2) = rotBlock T1 * rotBlock T2 := by
  have b0 := h2 0
  have b1 := h2 1
  have b2 := h2 2
  simp at b0 b1 b2
  ext i j
  fin_cases i <;> fin_cases j <;>
    · simp [rotBlock, Matrix.mul_apply, Fin.sum_univ_four, Fin.sum_univ_three,
        Matrix.vecHead, Matrix.vecTail, b0, b1, b2]
      try ring

theorem isRigid_mul (T1 T2 : Matrix (Fin 4) (Fin 4) ℚ)
    (h1 : IsRigid T1) (h2 : IsRigid T2) : IsRigid (T1 * T2) := by
  obtain ⟨hb1, ho1, hd1⟩ := h1
  obtain ⟨hb2, ho2, hd2⟩ := h2
  refine ⟨bottom_mul T1 T2 hb1 hb2, ?_, ?_⟩
  · rw [rotBlock_mul T1 T2 hb2]
    exact orthMul _ _ ho1 ho2
  · rw [rotBlock_mul T1 T2 hb2, Matrix.det_mul, hd1, hd2]
    norm_num

theorem rotBlock_one : rotBlock (1 : Matrix (Fin 4) (Fin 4) ℚ) = 1 := by
  ext i j
  fin_cases i <;> fin_cases j <;>
    simp [rotBlock, Matrix.one_apply, Matrix.vecHead, Matrix.vecTail]

theorem isRigid_one : IsRigid (1 : Matrix (Fin 4) (Fin 4) ℚ) := by
  refine ⟨?_, ?_, ?_⟩
  · intro j
    fin_cases j <;> simp [Matrix.one_apply]
  · rw [rotBlock_one]
    simp
  · rw [rotBlock_one]
    simp

theorem isRigid_foldl (ds : List (Matrix (Fin 4) (Fin 4) ℚ))
    (h : ∀ d ∈ ds, IsRigid d) :
    ∀ T, IsRigid T → IsRigid (ds.foldl (fun acc δ => δ * acc) T) := by
  induction ds with
  | nil => exact fun T hT => hT
  | cons x xs ih =>
    intro T hT
    simp only [List.foldl_cons]
    exact ih (fun e he => h e (List.mem_cons_of_mem x he)) (x * T)
      (isRigid_mul x T (h x (List.mem_cons_self x xs)) hT)

/-- C7: every 3D transform the fit functions produce is rigid.  The
point-to-point (Kabsch) rotation with reflection correction, and the
point-to-plane / normal-weighted rotation reconstructed by the exact rotation
formula, each yield an exactly orthogonal rotation with determinant exactly
+1, so their homogeneous assemblies satisfy the invariant; the invariant is
closed under the delta composition by which the iterative loop accumulates
its transform (in particular any fold of produced deltas starting from the
identity); and every transform satisfying the invariant has bottom row
[0,0,0,1] with every entry of R·Rᵀ − I below 0.1 in absolute value and
|det R − 1| < 0.1. -/
theorem fit_transform_rigidity :
    (∀ U V : Mat3, U * U.transpose = 1 → V * V.transpose = 1 →
      ∀ cs ct, IsRigid (toHomogeneous (kabschRotation U V)
        (kabschTranslation (kabschRotation U V) cs ct))) ∧
    (∀ c s : ℚ, ∀ k t : Fin 3 → ℚ, c ^ 2 + s ^ 2 = 1 →
      k 0 ^ 2 + k 1 ^ 2 + k 2 ^ 2 = 1 →
      IsRigid (toHomogeneous (rodrigues c s k) t)) ∧
    (∀ T1 T2, IsRigid T1 → IsRigid T2 → IsRigid (T1 * T2)) ∧
    (∀ ds : List (Matrix (Fin 4) (Fin 4) ℚ), (∀ d ∈ ds, IsRigid d) →
      IsRigid (ds.foldl (fun acc δ => δ * acc) 1)) ∧
    (∀ T, IsRigid T →
      (∀ j, T 3 j = ![0, 0, 0, 1] j) ∧
      (∀ i j, |(rotBlock T * (rotBlock T).transpose - 1) i j| < 1 / 10) ∧
      |(rotBlock T).det - 1| < 1 / 10) := by
  refine ⟨?_, ?_, isRigid_mul, ?_, ?_⟩
  · intro U V hU hV cs ct
    obtain ⟨ho, hd⟩ := kabschRotation_rigid U V hU hV
    exact isRigid_toHomogeneous _ _ ho hd
  · intro c s k t hcs hk
    exact isRigid_toHomogeneous _ _ (rodrigues_orth c s k hcs hk)
      (rodrigues_det c s k hcs hk)
  · intro ds hds
    exact isRigid_foldl ds hds 1 isRigid_one
  · intro T hT
    obtain ⟨hb, ho, hd⟩ := hT
    refine ⟨hb, ?_, ?_⟩
    · intro i j
      rw [ho, sub_self]
      simp
    · rw [hd, sub_self]
      norm_num

/-- C7 witness: concrete evaluation of `fit_transform_rigidity` on the
Rodrigues reconstruction with cos = 3/5, sin = 4/5 about the x-axis. -/
theorem fit_transform_rigidity_witness :
    IsRigid (toHomogeneous (rodrigues (3 / 5) (4 / 5) ![1, 0, 0]) 0) :=
  fit_transform_rigidity.2.1 (3 / 5) (4 / 5) ![1, 0, 0] 0 (by norm_num)
    (by norm_num)

/-- Modelled from the spec: the Gaussian correspondence kernel
weight = exp(−d² / (2σ²)) (spec §4.2; the native weight function is absent
from src/). -/
noncomputable def gaussWeight (sigma d : ℝ) : ℝ :=
  Real.exp (-(d ^ 2) / (2 * sigma ^ 2))

/-- Modelled from the spec: the kernel bandwidth — the supplied sigma when
given, else the k-th (last, farthest) neighbor distance (adaptive). -/
def knnSigma (sigma : Option ℝ) (d : List ℝ) : ℝ :=
  sigma.getD (d.getLastD 0)

/-- Modelled from the spec: soft-correspondence weights for the ascending
neighbor distances d₁..d_k: trivially [1] when k = 1 (classic ICP), else the
Gaussian weights normalized to sum to 1. -/
noncomputable def softWeights (sigma : Option ℝ) (d : List ℝ) : List ℝ :=
  if d.length = 1 then [1]
  else
    (d.map (gaussWeight (knnSigma sigma d))).map
      (fun w => w / (d.map (gaussWeight (knnSigma sigma d))).sum)

/-- Modelled from the spec: the soft correspondence target Σ wᵢ · tᵢ. -/
noncomputable def softTarget (w : List ℝ) (tgts : List (Fin 3 → ℝ)) :
    Fin 3 → ℝ :=
  (List.zipWith (fun wi ti => wi • ti) w tgts).sum

theorem sum_map_div (l : List ℝ) (s : ℝ) :
    (l.map (fun w => w / s)).sum = l.sum / s := by
  induction l with
  | nil => simp
  | cons x xs ih => simp [ih, add_div]

theorem gauss_sum_pos (s : ℝ) (d : List ℝ) (h : d ≠ []) :
    0 < (d.map (gaussWeight s)).sum := by
  rcases d with _ | ⟨x, xs⟩
  · cases h rfl
  · have h1 : 0 < gaussWeight s x := Real.exp_pos _
    have h2 : 0 ≤ (xs.map (gaussWeight s)).sum := by
      apply List.sum_nonneg
      intro y hy
      rcases List.mem_map.mp hy with ⟨z, _, rfl⟩
      exact (Real.exp_pos _).le
    simp only [List.map_cons, List.sum_cons]
    linarith

/-- C9: the correspondence weights: weight is 1 for a single neighbor;
for k ≥ 2 the weight of each distance dᵢ is exp(−dᵢ²/(2σ²)) normalized by
the total, the normalized weights sum to 1, σ is the supplied value when
given and the k-th (last) neighbor distance otherwise, and the soft
correspondence target is Σ wᵢ·tᵢ. -/
theorem soft_correspondence_weights (d : List ℝ) (sigma : Option ℝ)
    (hk : 1 ≤ d.length) :
    (d.length = 1 → softWeights sigma d = [1]) ∧
    (2 ≤ d.length →
      softWeights sigma d =
        (d.map (gaussWeight (knnSigma sigma d))).map
          (fun w => w / (d.map (gaussWeight (knnSigma sigma d))).sum) ∧
      (softWeights sigma d).sum = 1) ∧
    (sigma = none → knnSigma sigma d = d.getLastD 0) ∧
    (∀ s, sigma = some s → knnSigma sigma d = s) ∧
    (∀ x s, gaussWeight s x = Real.exp (-(x ^ 2) / (2 * s ^ 2))) ∧
    (∀ w tgts, softTarget w tgts =
      (List.zipWith (fun wi ti => wi • ti) w tgts).sum) := by
  refine ⟨?_, ?_, ?_, ?_, fun _ _ => rfl, fun _ _ => rfl⟩
  · intro h
    simp [softWeights, h]
  · intro h2
    have hlen : d.length ≠ 1 := by omega
    have hne : d ≠ [] := by
      intro h
      rw [h] at h2
      simp at h2
    refine ⟨by simp [softWeights, hlen], ?_⟩
    rw [softWeights, if_neg hlen, sum_map_div]
    exact div_self (ne_of_gt (gauss_sum_pos _ d hne))
  · intro h
    simp [knnSigma, h]
  · intro s h
    simp [knnSigma, h]

/-- C9 witness: concrete evaluation of `soft_correspondence_weights`:
two neighbors at distances 0 and 1 with supplied sigma 1 get weights summing
to 1. -/
theorem soft_correspondence_weights_witness :
    (softWeights (some 1) [(0 : ℝ), 1]).sum = 1 :=
  ((soft_correspondence_weights [(0 : ℝ), 1] (some 1)
    (by norm_num)).2.1 (by norm_num)).2

/-- World-space Euclidean distance between coordinate lists. -/
noncomputable def euclDist (p q : List ℝ) : ℝ :=
  Real.sqrt ((List.zipWith (fun a b => (a - b) ^ 2) p q).sum)

/-- Modelled from the spec: distance from `p` to the nearest point of `tgt`
(k = 1 case of the correspondence machinery; the native kernel is absent
from src/). -/
noncomputable def nearestDist (p : List ℝ) (tgt : List (List ℝ)) : ℝ :=
  match tgt with
  | [] => 0
  | q :: qs => qs.foldl (fun m r => min m (euclDist p r)) (euclDist p q)

/-- Modelled from the spec: the one-directional chamfer kernel — the mean
over source world points of the nearest-neighbor distance into the target. -/
noncomputable def chamferKernel (src tgt : List (List ℝ)) : ℝ :=
  (src.map (fun p => nearestDist p tgt)).sum / src.length

/-- A point cloud as consumed by `chamfer_error`: dimensionality, dtype, and
the world-space coordinates (the native payload applies the stored
transformation, so computation is in world space per the spec). -/
structure CPC : Type where
  dims : ℕ
  dtype : DType
  wpts : List (List ℝ)

/-- Embedding of `chamfer_error` (chamfer_error.py, lines 70-81):
`ensure_point_cloud(target, dims=source.dims)` raises on dimensionality
mismatch, then dtype equality is checked, then the native kernel is
invoked on the two clouds. -/
noncomputable def chamfer_error (source target : CPC) : Except FitError ℝ :=
  if source.dims ≠ target.dims then .error .dimensionMismatch
  else if source.dtype ≠ target.dtype then .error .dtypeMismatch
  else .ok (chamferKernel source.wpts target.wpts)

theorem foldlMin_le_init {α : Type} (g : α → ℝ) (l : List α) (a : ℝ) :
    l.foldl (fun m r => min m (g r)) a ≤ a := by
  induction l generalizing a with
  | nil => simp
  | cons x xs ih =>
    simp only [List.foldl_cons]
    exact (ih (min a (g x))).trans (min_le_left _ _)

theorem foldlMin_le_mem {α : Type} (g : α → ℝ) (l : List α) (a : ℝ) :
    ∀ x ∈ l, l.foldl (fun m r => min m (g r)) a ≤ g x := by
  induction l generalizing a with
  | nil => simp
  | cons y ys ih =>
    intro x hx
    rcases List.mem_cons.mp hx with rfl | hx
    · simp only [List.foldl_cons]
      exact (foldlMin_le_init g ys (min a (g x))).trans (min_le_right _ _)
    · simp only [List.foldl_cons]
      exact ih (min a (g y)) x hx

theorem foldlMin_attained {α : Type} (g : α → ℝ) (l : List α) (a : ℝ) :
    l.foldl (fun m r => min m (g r)) a = a ∨
      ∃ x ∈ l, l.foldl (fun m r => min m (g r)) a = g x := by
  induction l generalizing a with
  | nil => left; rfl
  | cons y ys ih =>
    simp only [List.foldl_cons]
    rcases ih (min a (g y)) with h | ⟨x, hx, hh⟩
    · rcases min_choice a (g y) with he | he
      · left
        rw [h, he]
      · right
        exact ⟨y, List.mem_cons_self y ys, by rw [h, he]⟩
    · right
      exact ⟨x, List.mem_cons_of_mem y hx, hh⟩

/-- C10: on clouds of equal dimensionality and dtype, `chamfer_error`
returns the mean over all source points of the distance to the target
(one-directional), where each per-point value is a true nearest-neighbor
distance: a lower bound on the distance to every target point, attained at
some target point. -/
theorem chamfer_error_spec (source target : CPC)
    (hd : source.dims = target.dims) (ht : source.dtype = target.dtype)
    (htgt : target.wpts ≠ []) :
    chamfer_error source target =
      .ok ((source.wpts.map (fun p => nearestDist p target.wpts)).sum /
        source.wpts.length) ∧
    (∀ p, ∀ q ∈ target.wpts, nearestDist p target.wpts ≤ euclDist p q) ∧
    (∀ p, ∃ q ∈ target.wpts, nearestDist p target.wpts = euclDist p q) := by
  refine ⟨by simp [chamfer_error, chamferKernel, hd, ht], ?_, ?_⟩
  · intro p q hq
    rcases hw : target.wpts with _ | ⟨r, rs⟩
    · rw [hw] at hq
      cases hq
    · rw [hw] at hq
      rcases List.mem_cons.mp hq with rfl | hq
      · show rs.foldl (fun m r => min m (euclDist p r)) (euclDist p q) ≤
          euclDist p q
        exact foldlMin_le_init (euclDist p) rs (euclDist p q)
      · show rs.foldl (fun s r => min s (euclDist p r)) (euclDist p r) ≤
          euclDist p q
        exact foldlMin_le_mem (euclDist p) rs (euclDist p r) q hq
  · intro p
    rcases hw : target.wpts with _ | ⟨r, rs⟩
    · cases htgt hw
    · rcases foldlMin_attained (euclDist p) rs (euclDist p r) with h | ⟨x, hx, hh⟩
      · refine ⟨r, List.mem_cons_self r rs, ?_⟩
        show rs.foldl (fun m s => min m (euclDist p s)) (euclDist p r) =
          euclDist p r
        exact h
      · refine ⟨x, List.mem_cons_of_mem r hx, ?_⟩
        show rs.foldl (fun m s => min m (euclDist p s)) (euclDist p r) =
          euclDist p x
        exact hh

/-- C10 witness: concrete evaluation of `chamfer_error_spec`. -/
theorem chamfer_error_spec_witness :
    chamfer_error ⟨3, DType.float32, [[0, 0, 0]]⟩
        ⟨3, DType.float32, [[0, 0, 0]]⟩ =
      .ok ((([[(0 : ℝ), 0, 0]]).map
        (fun p => nearestDist p [[0, 0, 0]])).sum /
        (([[(0 : ℝ), 0, 0]]).length : ℝ)) :=
  (chamfer_error_spec ⟨3, DType.float32, [[0, 0, 0]]⟩
    ⟨3, DType.float32, [[0, 0, 0]]⟩ rfl rfl (by simp)).1
